import Mathlib

/-!
Verification of the banking-api repository against its specification.

The Python source is shallowly embedded:
- Python dicts keyed by id become association lists `List (key × value)`
  with `dictGet` / `dictInsert` mirroring `d.get(k)` / `d[k] = v`.
- Currency amounts, carried as Python floats but declared `decimal` by the
  spec, are modelled as exact rationals `ℚ`.
- Raised exceptions become `Except BankError` results; since the store is
  mutated in place, every operation also returns the resulting store, so a
  failing operation still reports the store it leaves behind.
- `uuid.uuid4().hex` used for account ids is modelled as a fresh-identifier
  supply: the store carries a counter `nextId` and `genAccountId` encodes it
  injectively into a string of the shape `acc-…`, abstracting the randomly
  drawn, assumed collision-free hex digest.  The transaction id and the
  `datetime.now()` timestamp of a transfer are external inputs and are
  passed as explicit arguments.
- The `threading.Lock` discipline of the store is embedded separately as the
  event trace each mutating method performs (acquire / mutate / release),
  read off from the `with self.lock:` blocks in `db.py`.
-/

namespace Banking

/-- Error kinds raised by the code: the four domain exceptions of
`app/utils/exceptions.py` plus Python's built-in `KeyError`. -/
inductive BankError where
  | accountNotFound
  | customerNotFound
  | insufficientFunds
  | selfTransfer
  | keyError
deriving DecidableEq, Repr

/-- Customer row, from `seed_data.py` / `schemas.Customer`. -/
structure Customer where
  customer_id : Int
  name : String
  email : String
deriving DecidableEq, Repr

/-- An account dict.  The seed rows of `seed_data.py` store the account id
under the key `"id"`, while `Database.create_account` stores it under
`"account_id"`; both optional fields record which key is present
(`none` = key absent from the dict). -/
structure AccountRec where
  idKey : Option String
  accountIdKey : Option String
  customer_id : Int
  balance : ℚ
deriving DecidableEq, Repr

/-- Transfer record, from `schemas.Transfer` (timestamp kept abstract as the
string the external clock supplies). -/
structure Transfer where
  transaction_id : String
  from_account_id : String
  to_account_id : String
  transfer_amount : ℚ
  timestamp : String
deriving DecidableEq, Repr

/-- Python `d.get(k)` on a dict embedded as an association list. -/
def dictGet {α β : Type} [DecidableEq α] (k : α) : List (α × β) → Option β
  | [] => none
  | p :: rest => if p.1 = k then some p.2 else dictGet k rest

/-- Python `d[k] = v`: overwrite in place if the key exists, else append
(Python dicts preserve insertion order). -/
def dictInsert {α β : Type} [DecidableEq α] (l : List (α × β)) (k : α) (v : β) :
    List (α × β) :=
  if (dictGet k l).isSome then
    l.map (fun p => if p.1 = k then (k, v) else p)
  else l ++ [(k, v)]

/-- The in-memory store of `app/database/db.py` (customers, accounts,
transfers), together with the fresh-id counter modelling the uuid supply. -/
structure Db where
  customers : List (Int × Customer)
  accounts : List (String × AccountRec)
  transfers : List Transfer
  nextId : Nat
deriving DecidableEq, Repr

/-- Models `f"acc-{uuid.uuid4().hex[:8]}"`: the random hex digest, assumed
collision-free, is abstracted as an injective encoding of the counter. -/
def genAccountId (n : Nat) : String :=
  "acc-" ++ String.mk (List.replicate (n + 1) 'u')

/-- Effect of `account["balance"] += amount` on one account dict. -/
def bump (amount : ℚ) (a : AccountRec) : AccountRec :=
  { a with balance := a.balance + amount }

/-- In-place effect of `account["balance"] += amount` on the accounts dict:
the entry under `account_id` (if any) gets its balance bumped by `amount`. -/
def updBal (account_id : String) (amount : ℚ)
    (l : List (String × AccountRec)) : List (String × AccountRec) :=
  l.map (fun p => if p.1 = account_id then (p.1, bump amount p.2) else p)

namespace Database

/-- `Database.get_customer`. -/
def get_customer (db : Db) (customer_id : Int) : Option Customer :=
  dictGet customer_id db.customers

/-- `Database.get_account`. -/
def get_account (db : Db) (account_id : String) : Option AccountRec :=
  dictGet account_id db.accounts

/-- `Database.get_accounts_by_customer`. -/
def get_accounts_by_customer (db : Db) (customer_id : Int) : List AccountRec :=
  (db.accounts.filter (fun p => p.2.customer_id = customer_id)).map Prod.snd

/-- `Database.create_account`: generate a fresh id, store the new dict
(whose id sits under the `"account_id"` key) and return it. -/
def create_account (db : Db) (customer_id : Int) (initial_deposit : ℚ) :
    AccountRec × Db :=
  let account_id := genAccountId db.nextId
  let account : AccountRec :=
    { idKey := none, accountIdKey := some account_id,
      customer_id := customer_id, balance := initial_deposit }
  (account,
   { db with accounts := dictInsert db.accounts account_id account,
             nextId := db.nextId + 1 })

/-- `Database.get_balance`. -/
def get_balance (db : Db) (account_id : String) : Except BankError ℚ :=
  match get_account db account_id with
  | none => .error .accountNotFound
  | some a => .ok a.balance

/-- `Database.update_balance`: add `amount` to the stored balance; silently a
no-op when the account is absent. -/
def update_balance (db : Db) (account_id : String) (amount : ℚ) : Db :=
  { db with accounts := updBal account_id amount db.accounts }

/-- `Database.add_transfer`: append to the transfer log. -/
def add_transfer (db : Db) (t : Transfer) : Db :=
  { db with transfers := db.transfers ++ [t] }

/-- `Database.get_transfers_by_account`. -/
def get_transfers_by_account (db : Db) (account_id : String) :
    Except BankError (List Transfer) :=
  match get_account db account_id with
  | none => .error .accountNotFound
  | some _ => .ok (db.transfers.filter (fun t =>
      t.from_account_id = account_id ∨ t.to_account_id = account_id))

/-- Models the comprehension `[acc["id"] for acc in …]`: Python raises
`KeyError` at the first dict lacking the `"id"` key. -/
def idsOf : List AccountRec → Except BankError (List String)
  | [] => .ok []
  | a :: rest =>
    match a.idKey with
    | none => .error .keyError
    | some s =>
      match idsOf rest with
      | .error e => .error e
      | .ok l => .ok (s :: l)

/-- `Database.get_transfers_by_customer`: raises the (repurposed)
`AccountNotFoundException` when the customer is absent, then reads
`acc["id"]` off each of the customer's accounts and filters the log. -/
def get_transfers_by_customer (db : Db) (customer_id : Int) :
    Except BankError (List Transfer) :=
  match get_customer db customer_id with
  | none => .error .accountNotFound
  | some _ =>
    match idsOf (get_accounts_by_customer db customer_id) with
    | .error e => .error e
    | .ok ids => .ok (db.transfers.filter (fun t =>
        t.from_account_id ∈ ids ∨ t.to_account_id ∈ ids))

end Database

namespace BankingService

/-- `BankingService.create_account`: `CustomerNotFound` if the customer is
absent, otherwise delegate to the store. -/
def create_account (db : Db) (customer_id : Int) (initial_deposit : ℚ) :
    Except BankError AccountRec × Db :=
  match Database.get_customer db customer_id with
  | none => (.error .customerNotFound, db)
  | some _ =>
    let r := Database.create_account db customer_id initial_deposit
    (.ok r.1, r.2)

/-- `BankingService.execute_transfer`.  `txnId` models `str(uuid.uuid4())`
and `now` models `datetime.now()`, both external inputs.  Checks run in
source order: source account missing, destination missing, fetched account
dicts equal (`from_account == to_account`), insufficient balance; only then
the two `update_balance` calls and the `add_transfer`. -/
def execute_transfer (db : Db) (from_account_id to_account_id : String)
    (transfer_amount : ℚ) (txnId now : String) :
    Except BankError Transfer × Db :=
  match Database.get_account db from_account_id,
        Database.get_account db to_account_id with
  | none, _ => (.error .accountNotFound, db)
  | some _, none => (.error .accountNotFound, db)
  | some fa, some ta =>
    if fa = ta then (.error .selfTransfer, db)
    else if fa.balance < transfer_amount then (.error .insufficientFunds, db)
    else
      let db1 := Database.update_balance db from_account_id (-transfer_amount)
      let db2 := Database.update_balance db1 to_account_id transfer_amount
      let t : Transfer :=
        { transaction_id := txnId, from_account_id := from_account_id,
          to_account_id := to_account_id, transfer_amount := transfer_amount,
          timestamp := now }
      (.ok t, Database.add_transfer db2 t)

end BankingService

/-- Body of a `TransferRequest` (`schemas.py`). -/
structure TransferRequest where
  from_account_id : String
  to_account_id : String
  transfer_amount : ℚ
deriving DecidableEq, Repr

namespace routes

/-- The `POST /transfers` handler of `routes.py`: it pre-checks id equality
and raises `SelfTransferException` before ever calling the service. -/
def transfer_amount (db : Db) (req : TransferRequest) (txnId now : String) :
    Except BankError Transfer × Db :=
  if req.from_account_id = req.to_account_id then (.error .selfTransfer, db)
  else BankingService.execute_transfer db req.from_account_id
    req.to_account_id req.transfer_amount txnId now

end routes

/-- Seed customers of `seed_data.py`. -/
def seedCustomers : List (Int × Customer) :=
  [(1, ⟨1, "Arisha Barron", "Arisha@dummy.com"⟩),
   (2, ⟨2, "Branden Gibson", "Branden@dummy.com"⟩),
   (3, ⟨3, "Rhonda Church", "Rhonda@dummy.com"⟩),
   (4, ⟨4, "Georgina Hazel", "Georgina@dummy.com"⟩)]

/-- Seed accounts of `seed_data.py`; note they store their id under the
`"id"` key, not `"account_id"`. -/
def seedAccounts : List (String × AccountRec) :=
  [("acc1-1234", ⟨some "acc1-1234", none, 1, 1000⟩),
   ("acc2-5678", ⟨some "acc2-5678", none, 2, 500⟩),
   ("acc3-9012", ⟨some "acc3-9012", none, 3, 750.50⟩),
   ("acc4-3456", ⟨some "acc4-3456", none, 4, 2000.75⟩),
   ("acc5-7890", ⟨some "acc5-7890", none, 1, 250⟩)]

/-- Seed transfer log of `seed_data.py`. -/
def seedTransfers : List Transfer :=
  [⟨"txn1-1111", "acc1-1234", "acc2-5678", 200, "2025-03-23T10:00:00"⟩]

/-- The store as `Database.__init__` builds it from the seed data. -/
def seedDb : Db :=
  { customers := seedCustomers, accounts := seedAccounts,
    transfers := seedTransfers, nextId := 0 }

/-- An accounts-dict entry is keyed consistently: any id stored under `"id"`
or `"account_id"` equals the dict key, and at least one of the two is
present.  Both the seed rows and the rows built by `create_account`
satisfy this. -/
abbrev keyMatches (p : String × AccountRec) : Prop :=
  (p.2.idKey = none ∨ p.2.idKey = some p.1) ∧
  (p.2.accountIdKey = none ∨ p.2.accountIdKey = some p.1) ∧
  (p.2.idKey ≠ none ∨ p.2.accountIdKey ≠ none)

/-- Well-formedness of the store, as a Python dict guarantees it: account
keys are unique and every entry is keyed consistently. -/
abbrev wf (db : Db) : Prop :=
  (db.accounts.map Prod.fst).Nodup ∧ ∀ p ∈ db.accounts, keyMatches p

/-- Sum of all account balances in the store. -/
def balanceSum (db : Db) : ℚ :=
  (db.accounts.map (fun p => p.2.balance)).sum

/-- Every stored balance is non-negative. -/
abbrev nonNegBalances (db : Db) : Prop :=
  ∀ p ∈ db.accounts, 0 ≤ p.2.balance

/-- The id supply is ahead of every id present in the store: ids the counter
has not yet produced do not occur as account keys. -/
def freshIds (db : Db) : Prop :=
  ∀ n, db.nextId ≤ n → dictGet (genAccountId n) db.accounts = none

/-- Combined store invariant. -/
def Inv (db : Db) : Prop := wf db ∧ freshIds db ∧ nonNegBalances db

/-- Stores reachable from the seeded store through the public mutating
operations, with the amount bounds that `schemas.py` validates before the
service runs (`0 < value ≤ 1,000,000` for deposits and transfer amounts). -/
inductive Reachable : Db → Prop
  | seed : Reachable seedDb
  | create (db : Db) (cid : Int) (d : ℚ) (acc : AccountRec) :
      Reachable db → 0 < d → d ≤ 1000000 →
      (BankingService.create_account db cid d).1 = .ok acc →
      Reachable (BankingService.create_account db cid d).2
  | transfer (db : Db) (f t : String) (a : ℚ) (x w : String) (tr : Transfer) :
      Reachable db → 0 < a → a ≤ 1000000 →
      (BankingService.execute_transfer db f t a x w).1 = .ok tr →
      Reachable (BankingService.execute_transfer db f t a x w).2

/-- Events a store method performs, for the locking discipline: acquiring
`self.lock`, releasing it, and mutating shared state. -/
inductive StoreEvent where
  | acquire
  | release
  | mutate
deriving DecidableEq, Repr

/-- Event trace of `Database.create_account`: its whole body sits inside
`with self.lock:`. -/
def create_account_events : List StoreEvent := [.acquire, .mutate, .release]

/-- Event trace of `Database.update_balance`: the source takes no lock; it
mutates exactly when the account exists. -/
def update_balance_events (accountExists : Bool) : List StoreEvent :=
  if accountExists then [.mutate] else []

/-- Event trace of `Database.add_transfer`: the append sits inside
`with self.lock:`. -/
def add_transfer_events : List StoreEvent := [.acquire, .mutate, .release]

/-- Scans a trace with the current lock depth and checks that every mutation
happens while the lock is held. -/
def mutationsLocked : List StoreEvent → Nat → Bool
  | [], _ => true
  | .acquire :: rest, d => mutationsLocked rest (d + 1)
  | .release :: rest, d => mutationsLocked rest (d - 1)
  | .mutate :: rest, d => decide (0 < d) && mutationsLocked rest d

theorem dictGet_eq_none_iff {α β : Type} [DecidableEq α] (k : α)
    (l : List (α × β)) : dictGet k l = none ↔ k ∉ l.map Prod.fst := by
  induction l with
  | nil => simp [dictGet]
  | cons p rest ih =>
    by_cases h : p.1 = k
    · simp [dictGet, h]
    · simp [dictGet, h, ih, Ne.symm h]

theorem dictGet_mem {α β : Type} [DecidableEq α] {k : α} {v : β}
    {l : List (α × β)} (h : dictGet k l = some v) : (k, v) ∈ l := by
  induction l with
  | nil => simp [dictGet] at h
  | cons p rest ih =>
    obtain ⟨pk, pv⟩ := p
    by_cases hp : pk = k
    · rw [dictGet, if_pos hp] at h
      obtain rfl := Option.some.inj h
      subst hp
      exact List.mem_cons_self _ _
    · rw [dictGet, if_neg hp] at h
      exact List.mem_cons_of_mem _ (ih h)

theorem dictGet_of_mem_nodup {α β : Type} [DecidableEq α] {k : α} {v : β}
    {l : List (α × β)} (hnd : (l.map Prod.fst).Nodup) (hm : (k, v) ∈ l) :
    dictGet k l = some v := by
  induction l with
  | nil => simp at hm
  | cons p rest ih =>
    obtain ⟨pk, pv⟩ := p
    rw [List.map_cons, List.nodup_cons] at hnd
    rcases List.mem_cons.mp hm with h | h
    · injection h with h1 h2
      subst h1
      subst h2
      rw [dictGet, if_pos rfl]
    · have hk : k ∈ rest.map Prod.fst := List.mem_map.mpr ⟨(k, v), h, rfl⟩
      have hp : pk ≠ k := fun he => hnd.1 (he ▸ hk)
      rw [dictGet, if_neg hp]
      exact ih hnd.2 h

theorem dictGet_append_left {α β : Type} [DecidableEq α] {k : α} {v : β}
    {l1 l2 : List (α × β)} (h : dictGet k l1 = some v) :
    dictGet k (l1 ++ l2) = some v := by
  induction l1 with
  | nil => simp [dictGet] at h
  | cons p rest ih =>
    obtain ⟨pk, pv⟩ := p
    by_cases hp : pk = k
    · rw [dictGet, if_pos hp] at h
      rw [List.cons_append, dictGet, if_pos hp]
      exact h
    · rw [dictGet, if_neg hp] at h
      rw [List.cons_append, dictGet, if_neg hp]
      exact ih h

theorem dictGet_append_right {α β : Type} [DecidableEq α] {k : α}
    {l1 l2 : List (α × β)} (h : dictGet k l1 = none) :
    dictGet k (l1 ++ l2) = dictGet k l2 := by
  induction l1 with
  | nil => simp
  | cons p rest ih =>
    obtain ⟨pk, pv⟩ := p
    by_cases hp : pk = k
    · rw [dictGet, if_pos hp] at h
      exact absurd h (by simp)
    · rw [dictGet, if_neg hp] at h
      rw [List.cons_append, dictGet, if_neg hp]
      exact ih h

theorem dictInsert_of_none {α β : Type} [DecidableEq α] {k : α} {v : β}
    {l : List (α × β)} (h : dictGet k l = none) :
    dictInsert l k v = l ++ [(k, v)] := by
  simp [dictInsert, h]

theorem updBal_keys (aid : String) (amt : ℚ) (l : List (String × AccountRec)) :
    (updBal aid amt l).map Prod.fst = l.map Prod.fst := by
  induction l with
  | nil => rfl
  | cons p rest ih =>
    obtain ⟨pk, pv⟩ := p
    by_cases hp : pk = aid <;>
      simp only [updBal, List.map_cons, if_pos, if_neg, hp] at ih ⊢ <;>
      simp [hp, ih]

theorem dictGet_updBal_self (aid : String) (amt : ℚ)
    (l : List (String × AccountRec)) :
    dictGet aid (updBal aid amt l) = (dictGet aid l).map (bump amt) := by
  induction l with
  | nil => rfl
  | cons p rest ih =>
    obtain ⟨pk, pv⟩ := p
    by_cases hp : pk = aid
    · simp only [updBal, List.map_cons, if_pos hp]
      rw [dictGet, if_pos hp, dictGet, if_pos hp]
      rfl
    · simp only [updBal, List.map_cons, if_neg hp]
      rw [dictGet, if_neg hp, dictGet, if_neg hp]
      exact ih

theorem dictGet_updBal_ne {k aid : String} (hne : k ≠ aid) (amt : ℚ)
    (l : List (String × AccountRec)) :
    dictGet k (updBal aid amt l) = dictGet k l := by
  induction l with
  | nil => rfl
  | cons p rest ih =>
    obtain ⟨pk, pv⟩ := p
    by_cases hp : pk = aid
    · have hpk : pk ≠ k := fun h => hne (h ▸ hp)
      simp only [updBal, List.map_cons, if_pos hp]
      rw [dictGet, if_neg hpk, dictGet, if_neg hpk]
      exact ih
    · simp only [updBal, List.map_cons, if_neg hp]
      by_cases hpk : pk = k
      · rw [dictGet, if_pos hpk, dictGet, if_pos hpk]
      · rw [dictGet, if_neg hpk, dictGet, if_neg hpk]
        exact ih

theorem updBal_of_not_mem {aid : String} {l : List (String × AccountRec)}
    (h : aid ∉ l.map Prod.fst) (amt : ℚ) : updBal aid amt l = l := by
  induction l with
  | nil => rfl
  | cons p rest ih =>
    obtain ⟨pk, pv⟩ := p
    simp only [List.map_cons, List.mem_cons, not_or] at h
    have hp : pk ≠ aid := fun he => h.1 he.symm
    simp only [updBal, List.map_cons, if_neg hp]
    rw [show List.map (fun p => if p.1 = aid then (p.1, bump amt p.2) else p)
          rest = updBal aid amt rest from rfl, ih h.2]

theorem balSum_updBal {aid : String} {l : List (String × AccountRec)}
    {acc : AccountRec} (hnd : (l.map Prod.fst).Nodup)
    (h : dictGet aid l = some acc) (amt : ℚ) :
    ((updBal aid amt l).map (fun p => p.2.balance)).sum =
      (l.map (fun p => p.2.balance)).sum + amt := by
  induction l with
  | nil => simp [dictGet] at h
  | cons p rest ih =>
    obtain ⟨pk, pv⟩ := p
    rw [List.map_cons, List.nodup_cons] at hnd
    have hrw : List.map (fun p => if p.1 = aid then (p.1, bump amt p.2) else p)
        rest = updBal aid amt rest := rfl
    by_cases hp : pk = aid
    · have hrest : updBal aid amt rest = rest :=
        updBal_of_not_mem (hp ▸ hnd.1) amt
      simp only [updBal, List.map_cons, if_pos hp]
      rw [hrw, hrest]
      simp only [List.map_cons, List.sum_cons, bump]
      ring
    · rw [dictGet, if_neg hp] at h
      simp only [updBal, List.map_cons, if_neg hp]
      rw [hrw]
      simp only [List.map_cons, List.sum_cons]
      rw [ih hnd.2 h]
      ring

theorem genAccountId_inj {m n : Nat} (h : genAccountId m = genAccountId n) :
    m = n := by
  have hd := congrArg String.data h
  simp only [genAccountId, String.data_append] at hd
  have hl := congrArg List.length hd
  simp at hl
  exact hl

theorem update_balance_accounts (db : Db) (aid : String) (amt : ℚ) :
    (Database.update_balance db aid amt).accounts = updBal aid amt db.accounts :=
  rfl

theorem update_balance_transfers (db : Db) (aid : String) (amt : ℚ) :
    (Database.update_balance db aid amt).transfers = db.transfers := rfl

theorem add_transfer_accounts (db : Db) (t : Transfer) :
    (Database.add_transfer db t).accounts = db.accounts := rfl

theorem add_transfer_transfers (db : Db) (t : Transfer) :
    (Database.add_transfer db t).transfers = db.transfers ++ [t] := rfl

theorem seed_keys_ne_gen (n : Nat) :
    ∀ s ∈ seedAccounts.map Prod.fst, s ≠ genAccountId n := by
  intro s hs h
  have hd := congrArg String.data h
  simp only [seedAccounts, List.map_cons, List.map_nil] at hs
  fin_cases hs <;> simp [genAccountId, String.data_append] at hd

theorem freshIds_seedDb : freshIds seedDb := by
  intro n _
  rw [dictGet_eq_none_iff]
  intro hmem
  exact seed_keys_ne_gen n _ hmem rfl

theorem wf_seedDb : wf seedDb := by decide

theorem nonNeg_seedDb : nonNegBalances seedDb := by
  intro p hp
  simp only [seedDb, seedAccounts, List.mem_cons, List.not_mem_nil,
    or_false] at hp
  rcases hp with rfl | rfl | rfl | rfl | rfl <;> norm_num

theorem wf_ne_of_dictGet {db : Db} {A B : String} {accA accB : AccountRec}
    (hwf : wf db) (hA : dictGet A db.accounts = some accA)
    (hB : dictGet B db.accounts = some accB) (hne : A ≠ B) : accA ≠ accB := by
  intro he
  subst he
  have kA := hwf.2 _ (dictGet_mem hA)
  have kB := hwf.2 _ (dictGet_mem hB)
  simp only [keyMatches] at kA kB
  rcases kA.2.2 with h1 | h2
  · rcases kA.1 with h | h
    · exact h1 h
    · rcases kB.1 with h' | h'
      · exact h1 h'
      · exact hne (Option.some.inj (h.symm.trans h'))
  · rcases kA.2.1 with h | h
    · exact h2 h
    · rcases kB.2.1 with h' | h'
      · exact h2 h'
      · exact hne (Option.some.inj (h.symm.trans h'))

theorem create_account_ok_eq {db : Db} {cid : Int} {c : Customer}
    (hc : dictGet cid db.customers = some c) (d : ℚ) :
    BankingService.create_account db cid d =
      (.ok ⟨none, some (genAccountId db.nextId), cid, d⟩,
       { db with
           accounts := dictInsert db.accounts (genAccountId db.nextId)
             ⟨none, some (genAccountId db.nextId), cid, d⟩,
           nextId := db.nextId + 1 }) := by
  simp [BankingService.create_account, Database.get_customer, hc,
    Database.create_account]

theorem create_account_err_eq {db : Db} {cid : Int}
    (hc : dictGet cid db.customers = none) (d : ℚ) :
    BankingService.create_account db cid d = (.error .customerNotFound, db) := by
  simp [BankingService.create_account, Database.get_customer, hc]

theorem execute_transfer_ok_eq {db : Db} {A B : String} {accA accB : AccountRec}
    {a : ℚ} (hA : dictGet A db.accounts = some accA)
    (hB : dictGet B db.accounts = some accB) (hne : accA ≠ accB)
    (hnlt : ¬accA.balance < a) (txn now : String) :
    BankingService.execute_transfer db A B a txn now =
      (.ok ⟨txn, A, B, a, now⟩,
       Database.add_transfer
         (Database.update_balance (Database.update_balance db A (-a)) B a)
         ⟨txn, A, B, a, now⟩) := by
  simp [BankingService.execute_transfer, Database.get_account, hA, hB, hne,
    hnlt]

theorem execute_transfer_ok_inv {db : Db} {f t : String} {a : ℚ}
    {x w : String} {tr : Transfer}
    (h : (BankingService.execute_transfer db f t a x w).1 = .ok tr) :
    ∃ fa ta, dictGet f db.accounts = some fa ∧
      dictGet t db.accounts = some ta ∧ fa ≠ ta ∧ ¬fa.balance < a ∧
      tr = ⟨x, f, t, a, w⟩ ∧
      (BankingService.execute_transfer db f t a x w).2 =
        Database.add_transfer
          (Database.update_balance (Database.update_balance db f (-a)) t a)
          ⟨x, f, t, a, w⟩ := by
  rcases hf : Database.get_account db f with _ | fa
  · simp [BankingService.execute_transfer, hf] at h
  rcases ht : Database.get_account db t with _ | ta
  · simp [BankingService.execute_transfer, hf, ht] at h
  by_cases hft : fa = ta
  · simp [BankingService.execute_transfer, hf, ht, hft] at h
  by_cases hlt : fa.balance < a
  · simp [BankingService.execute_transfer, hf, ht, hft, hlt] at h
  refine ⟨fa, ta, hf, ht, hft, hlt, ?_, ?_⟩
  · simp [BankingService.execute_transfer, hf, ht, hft, hlt] at h
    exact h.symm
  · simp [BankingService.execute_transfer, hf, ht, hft, hlt]

theorem keyMatches_updBal {l : List (String × AccountRec)}
    (h : ∀ p ∈ l, keyMatches p) (aid : String) (amt : ℚ) :
    ∀ p ∈ updBal aid amt l, keyMatches p := by
  intro p' hp'
  obtain ⟨p, hp, rfl⟩ := List.mem_map.mp hp'
  by_cases hk : p.1 = aid
  · have hkm := h p hp
    simp only [if_pos hk]
    simp only [keyMatches, bump] at hkm ⊢
    exact hkm
  · simp only [if_neg hk]
    exact h p hp

theorem inv_create {db : Db} {cid : Int} {d : ℚ} {acc : AccountRec}
    (hInv : Inv db) (hd : 0 < d)
    (hok : (BankingService.create_account db cid d).1 = .ok acc) :
    Inv (BankingService.create_account db cid d).2 := by
  obtain ⟨hwf, hfresh, hnn⟩ := hInv
  rcases hc : dictGet cid db.customers with _ | c
  · rw [create_account_err_eq hc] at hok
    simp at hok
  have hgd : dictGet (genAccountId db.nextId) db.accounts = none :=
    hfresh db.nextId le_rfl
  rw [create_account_ok_eq hc]
  simp only [Inv]
  refine ⟨⟨?_, ?_⟩, ?_, ?_⟩
  · rw [dictInsert_of_none hgd]
    rw [List.map_append]
    rw [List.nodup_append]
    refine ⟨hwf.1, by simp, ?_⟩
    intro s hs hs'
    simp only [List.map_cons, List.map_nil, List.mem_cons,
      List.not_mem_nil, or_false] at hs'
    subst hs'
    exact (dictGet_eq_none_iff _ _).mp hgd hs
  · intro p hp
    rw [dictInsert_of_none hgd] at hp
    rcases List.mem_append.mp hp with h | h
    · exact hwf.2 p h
    · simp only [List.mem_cons, List.not_mem_nil, or_false] at h
      subst h
      simp [keyMatches]
  · intro n hn
    rw [dictInsert_of_none hgd]
    have hn' : db.nextId + 1 ≤ n := hn
    have hnn' : db.nextId ≤ n := le_trans (Nat.le_succ _) hn'
    rw [dictGet_append_right (hfresh n hnn')]
    have hne : genAccountId db.nextId ≠ genAccountId n := by
      intro he
      have := genAccountId_inj he
      omega
    rw [dictGet, if_neg hne, dictGet]
  · intro p hp
    rw [dictInsert_of_none hgd] at hp
    rcases List.mem_append.mp hp with h | h
    · exact hnn p h
    · simp only [List.mem_cons, List.not_mem_nil, or_false] at h
      subst h
      exact le_of_lt hd

theorem inv_transfer {db : Db} {f t : String} {a : ℚ} {x w : String}
    {tr : Transfer} (hInv : Inv db) (ha : 0 < a)
    (hok : (BankingService.execute_transfer db f t a x w).1 = .ok tr) :
    Inv (BankingService.execute_transfer db f t a x w).2 := by
  obtain ⟨hwf, hfresh, hnn⟩ := hInv
  obtain ⟨fa, ta, hf, ht, hft, hlt, htr, hdb⟩ := execute_transfer_ok_inv hok
  have hkey : f ≠ t := by
    intro he
    rw [he] at hf
    exact hft (Option.some.inj (hf.symm.trans ht))
  rw [hdb]
  have haccs : (Database.add_transfer
      (Database.update_balance (Database.update_balance db f (-a)) t a)
      ⟨x, f, t, a, w⟩).accounts = updBal t a (updBal f (-a) db.accounts) := rfl
  refine ⟨⟨?_, ?_⟩, ?_, ?_⟩
  · rw [haccs, updBal_keys, updBal_keys]
    exact hwf.1
  · rw [haccs]
    exact keyMatches_updBal (keyMatches_updBal hwf.2 f (-a)) t a
  · intro n hn
    rw [haccs, dictGet_eq_none_iff, updBal_keys, updBal_keys]
    exact (dictGet_eq_none_iff _ _).mp (hfresh n hn)
  · intro p' hp'
    rw [haccs] at hp'
    obtain ⟨p1, hp1, rfl⟩ := List.mem_map.mp hp'
    obtain ⟨p0, hp0, rfl⟩ := List.mem_map.mp hp1
    by_cases hpf : p0.1 = f
    · have hp02 : p0.2 = fa := by
        have hg : dictGet f db.accounts = some p0.2 := by
          refine dictGet_of_mem_nodup hwf.1 ?_
          rw [← hpf]
          exact hp0
        exact Option.some.inj (hg.symm.trans hf)
      have hnt : ¬(p0.1 = t) := by rw [hpf]; exact hkey
      simp only [if_pos hpf, if_neg hnt, bump]
      simp only [hp02]
      have := not_lt.mp hlt
      linarith
    · simp only [if_neg hpf]
      by_cases hpt : p0.1 = t
      · simp only [if_pos hpt, bump]
        have := hnn p0 hp0
        linarith
      · simp only [if_neg hpt]
        exact hnn p0 hp0

theorem reachable_inv {db : Db} (h : Reachable db) : Inv db := by
  induction h with
  | seed => exact ⟨wf_seedDb, freshIds_seedDb, nonNeg_seedDb⟩
  | create db cid d acc _ hd _ hok ih => exact inv_create ih hd hok
  | transfer db f t a x w tr _ ha _ hok ih => exact inv_transfer ih ha hok

/-- C1: for distinct existing accounts A and B of a well-formed store and an
amount covered by A's balance, `execute_transfer` succeeds, debits A by
exactly the amount, credits B by exactly the amount, and appends exactly one
new Transfer record with that amount linking A to B. -/
theorem C1_transfer_success (db : Db) (A B txn now : String) (a : ℚ)
    (accA accB : AccountRec) (hwf : wf db)
    (hA : dictGet A db.accounts = some accA)
    (hB : dictGet B db.accounts = some accB) (hne : A ≠ B)
    (hbal : a ≤ accA.balance) :
    (BankingService.execute_transfer db A B a txn now).1 =
        .ok ⟨txn, A, B, a, now⟩ ∧
      dictGet A (BankingService.execute_transfer db A B a txn now).2.accounts =
        some { accA with balance := accA.balance - a } ∧
      dictGet B (BankingService.execute_transfer db A B a txn now).2.accounts =
        some { accB with balance := accB.balance + a } ∧
      (BankingService.execute_transfer db A B a txn now).2.transfers =
        db.transfers ++ [⟨txn, A, B, a, now⟩] := by
  have hrecne := wf_ne_of_dictGet hwf hA hB hne
  have hnlt : ¬accA.balance < a := not_lt.mpr hbal
  rw [execute_transfer_ok_eq hA hB hrecne hnlt]
  refine ⟨rfl, ?_, ?_, rfl⟩
  · rw [add_transfer_accounts, update_balance_accounts,
      update_balance_accounts, dictGet_updBal_ne hne, dictGet_updBal_self, hA]
    simp [bump, sub_eq_add_neg]
  · rw [add_transfer_accounts, update_balance_accounts,
      update_balance_accounts, dictGet_updBal_self,
      dictGet_updBal_ne (Ne.symm hne), hB]
    simp [bump]

/-- Witness for C1 at the seeded store: 100 from acc1-1234 to acc2-5678. -/
theorem C1_transfer_success_witness :
    (BankingService.execute_transfer seedDb "acc1-1234" "acc2-5678" 100
        "txn-w" "now-w").1 =
      .ok ⟨"txn-w", "acc1-1234", "acc2-5678", 100, "now-w"⟩ ∧
    dictGet "acc1-1234" (BankingService.execute_transfer seedDb "acc1-1234"
        "acc2-5678" 100 "txn-w" "now-w").2.accounts =
      some ⟨some "acc1-1234", none, 1, 1000 - 100⟩ ∧
    dictGet "acc2-5678" (BankingService.execute_transfer seedDb "acc1-1234"
        "acc2-5678" 100 "txn-w" "now-w").2.accounts =
      some ⟨some "acc2-5678", none, 2, 500 + 100⟩ ∧
    (BankingService.execute_transfer seedDb "acc1-1234" "acc2-5678" 100
        "txn-w" "now-w").2.transfers =
      seedDb.transfers ++ [⟨"txn-w", "acc1-1234", "acc2-5678", 100, "now-w"⟩] :=
  C1_transfer_success seedDb "acc1-1234" "acc2-5678" "txn-w" "now-w" 100
    ⟨some "acc1-1234", none, 1, 1000⟩ ⟨some "acc2-5678", none, 2, 500⟩
    wf_seedDb rfl rfl (by decide) (by norm_num)

/-- C2: a transfer between distinct existing accounts of a well-formed store
whose amount exceeds the source balance fails with InsufficientFunds and
leaves the store (in particular both balances) unchanged. -/
theorem C2_insufficient_funds (db : Db) (A B txn now : String) (a : ℚ)
    (accA accB : AccountRec) (hwf : wf db)
    (hA : dictGet A db.accounts = some accA)
    (hB : dictGet B db.accounts = some accB) (hne : A ≠ B)
    (hbal : accA.balance < a) :
    BankingService.execute_transfer db A B a txn now =
      (.error .insufficientFunds, db) := by
  have hrecne := wf_ne_of_dictGet hwf hA hB hne
  simp [BankingService.execute_transfer, Database.get_account, hA, hB,
    hrecne, hbal]

/-- Witness for C2 at the seeded store: 1000 from acc2-5678 (balance 500). -/
theorem C2_insufficient_funds_witness :
    BankingService.execute_transfer seedDb "acc2-5678" "acc1-1234" 1000
        "txn-w2" "now-w2" = (.error .insufficientFunds, seedDb) :=
  C2_insufficient_funds seedDb "acc2-5678" "acc1-1234" "txn-w2" "now-w2" 1000
    ⟨some "acc2-5678", none, 2, 500⟩ ⟨some "acc1-1234", none, 1, 1000⟩
    wf_seedDb rfl rfl (by decide) (by norm_num)

/-- C3: a successful transfer on a well-formed store leaves the sum of all
account balances unchanged. -/
theorem C3_balance_sum_preserved (db : Db) (f t txn now : String) (a : ℚ)
    (tr : Transfer) (hwf : wf db)
    (h : (BankingService.execute_transfer db f t a txn now).1 = .ok tr) :
    balanceSum (BankingService.execute_transfer db f t a txn now).2 =
      balanceSum db := by
  obtain ⟨fa, ta, hf, ht, hft, hlt, htr, hdb⟩ := execute_transfer_ok_inv h
  have hkey : f ≠ t := by
    intro he
    rw [he] at hf
    exact hft (Option.some.inj (hf.symm.trans ht))
  rw [hdb]
  have h1 : balanceSum (Database.add_transfer
      (Database.update_balance (Database.update_balance db f (-a)) t a)
      ⟨txn, f, t, a, now⟩) =
      ((updBal t a (updBal f (-a) db.accounts)).map
        (fun p => p.2.balance)).sum := rfl
  rw [h1]
  have hndf : ((updBal f (-a) db.accounts).map Prod.fst).Nodup := by
    rw [updBal_keys]
    exact hwf.1
  have htf : dictGet t (updBal f (-a) db.accounts) = some ta := by
    rw [dictGet_updBal_ne (Ne.symm hkey)]
    exact ht
  rw [balSum_updBal hndf htf a, balSum_updBal hwf.1 hf (-a)]
  simp only [balanceSum]
  ring

/-- Witness for C3 at the seeded store. -/
theorem C3_balance_sum_preserved_witness :
    balanceSum (BankingService.execute_transfer seedDb "acc1-1234"
        "acc2-5678" 100 "txn-w3" "now-w3").2 = balanceSum seedDb :=
  C3_balance_sum_preserved seedDb "acc1-1234" "acc2-5678" "txn-w3" "now-w3"
    100 ⟨"txn-w3", "acc1-1234", "acc2-5678", 100, "now-w3"⟩ wf_seedDb rfl

/-- C8: a transfer whose source and destination are the same existing
account fails with SelfTransfer for any amount and leaves the store (hence
every balance) unchanged. -/
theorem C8_self_transfer (db : Db) (A txn now : String) (a : ℚ)
    (accA : AccountRec) (hA : dictGet A db.accounts = some accA) :
    BankingService.execute_transfer db A A a txn now =
      (.error .selfTransfer, db) := by
  simp [BankingService.execute_transfer, Database.get_account, hA]

/-- Witness for C8 at the seeded store: acc1-1234 to itself. -/
theorem C8_self_transfer_witness :
    BankingService.execute_transfer seedDb "acc1-1234" "acc1-1234" 42
        "txn-w8" "now-w8" = (.error .selfTransfer, seedDb) :=
  C8_self_transfer seedDb "acc1-1234" "txn-w8" "now-w8" 42
    ⟨some "acc1-1234", none, 1, 1000⟩ rfl

/-- C10: whenever `execute_transfer` fails with any error (AccountNotFound,
SelfTransfer or InsufficientFunds), the store is left entirely unchanged:
no balance is modified and no Transfer record is appended. -/
theorem C10_failure_preserves_store (db : Db) (f t txn now : String) (a : ℚ)
    (e : BankError)
    (h : (BankingService.execute_transfer db f t a txn now).1 = .error e) :
    (BankingService.execute_transfer db f t a txn now).2 = db := by
  rcases hf : Database.get_account db f with _ | fa
  · simp [BankingService.execute_transfer, hf]
  rcases ht : Database.get_account db t with _ | ta
  · simp [BankingService.execute_transfer, hf, ht]
  by_cases hft : fa = ta
  · simp [BankingService.execute_transfer, hf, ht, hft]
  by_cases hlt : fa.balance < a
  · simp [BankingService.execute_transfer, hf, ht, hft, hlt]
  · exfalso
    simp [BankingService.execute_transfer, hf, ht, hft, hlt] at h

/-- Witness for C10: a transfer from a nonexistent account fails and leaves
the seeded store unchanged. -/
theorem C10_failure_preserves_store_witness :
    (BankingService.execute_transfer seedDb "ghost" "acc1-1234" 5 "txn-w10"
      "now-w10").2 = seedDb :=
  C10_failure_preserves_store seedDb "ghost" "acc1-1234" "txn-w10" "now-w10"
    5 .accountNotFound rfl

/-- C7: every store reachable from the seed through the validated public
operations has only non-negative balances. -/
theorem C7_reachable_nonneg (db : Db) (h : Reachable db) :
    ∀ p ∈ db.accounts, 0 ≤ p.2.balance :=
  (reachable_inv h).2.2

/-- Witness for C7 at the seeded store, instantiated at acc1-1234. -/
theorem C7_reachable_nonneg_witness :
    (0 : ℚ) ≤ (AccountRec.mk (some "acc1-1234") none 1 1000).balance :=
  C7_reachable_nonneg seedDb Reachable.seed
    ("acc1-1234", AccountRec.mk (some "acc1-1234") none 1 1000)
    (by simp [seedDb, seedAccounts])

/-- C9: the lock discipline of the mutating store operations, read off from
`db.py`.  `update_balance` mutates the balance WITHOUT holding the lock,
contradicting the claim that every mutating operation runs under it;
`create_account` and `add_transfer` do hold it. -/
theorem C9_update_balance_unlocked :
    mutationsLocked (update_balance_events true) 0 = false ∧
    mutationsLocked create_account_events 0 = true ∧
    mutationsLocked add_transfer_events 0 = true :=
  ⟨rfl, rfl, rfl⟩

/-- C4: after creating one account for customer 1 on the seeded store,
`get_transfers_by_customer 1` crashes with KeyError instead of returning the
customer's transfers — created accounts store their id under `"account_id"`
while the lookup reads `acc["id"]`. -/
theorem C4_keyError_after_create :
    Database.get_transfers_by_customer
      (BankingService.create_account seedDb 1 100).2 1 = .error .keyError :=
  rfl

/-- C5 counterexample: for the request `ghost → ghost` with no such account,
the `/transfers` route fails with SelfTransfer, not AccountNotFound — the
route's id-equality pre-check runs before the service's existence check. -/
theorem C5_counterexample :
    dictGet "ghost" seedDb.accounts = none ∧
    (routes.transfer_amount seedDb ⟨"ghost", "ghost", 1⟩ "x" "y").1 =
      .error .selfTransfer ∧
    (routes.transfer_amount seedDb ⟨"ghost", "ghost", 1⟩ "x" "y").1 ≠
      .error .accountNotFound := by
  refine ⟨rfl, rfl, fun h => ?_⟩
  rw [show (routes.transfer_amount seedDb ⟨"ghost", "ghost", 1⟩ "x" "y").1 =
    .error .selfTransfer from rfl] at h
  injection h with h2
  exact BankError.noConfusion h2

/-- C5 amended: for equal source and destination ids naming no account, the
route-level transfer operation fails with SelfTransfer (the API pre-check
fires first), while the service's `execute_transfer` alone fails with
AccountNotFound because its existence check precedes its self-transfer
check; either way the store is unchanged. -/
theorem C5_amended (db : Db) (A txn now : String) (a : ℚ)
    (h : dictGet A db.accounts = none) :
    routes.transfer_amount db ⟨A, A, a⟩ txn now = (.error .selfTransfer, db) ∧
    BankingService.execute_transfer db A A a txn now =
      (.error .accountNotFound, db) := by
  constructor
  · simp [routes.transfer_amount]
  · simp [BankingService.execute_transfer, Database.get_account, h]

/-- Witness for the amended C5 at the seeded store with the id `ghost`. -/
theorem C5_amended_witness :
    routes.transfer_amount seedDb ⟨"ghost", "ghost", 7⟩ "txn-w5" "now-w5" =
        (.error .selfTransfer, seedDb) ∧
      BankingService.execute_transfer seedDb "ghost" "ghost" 7 "txn-w5"
        "now-w5" = (.error .accountNotFound, seedDb) :=
  C5_amended seedDb "ghost" "txn-w5" "now-w5" 7 rfl

/-- C6: with a fresh id supply and an existing customer, the service's
`create_account` returns an account holding exactly the deposit under a
fresh id, overwrites nothing, a second call yields a different id, and for
an absent customer it always fails with CustomerNotFound, untouched store. -/
theorem C6_create_account_spec (db : Db) (cid cid2 : Int) (d d2 d3 : ℚ)
    (c : Customer) (hfresh : freshIds db)
    (hc : dictGet cid db.customers = some c) :
    (BankingService.create_account db cid d).1 =
        .ok ⟨none, some (genAccountId db.nextId), cid, d⟩ ∧
      dictGet (genAccountId db.nextId) db.accounts = none ∧
      (BankingService.create_account db cid d).2.accounts =
        db.accounts ++
          [(genAccountId db.nextId, ⟨none, some (genAccountId db.nextId),
            cid, d⟩)] ∧
      (∀ k v, dictGet k db.accounts = some v →
        dictGet k (BankingService.create_account db cid d).2.accounts =
          some v) ∧
      (BankingService.create_account
          (BankingService.create_account db cid d).2 cid d2).1 =
        .ok ⟨none, some (genAccountId (db.nextId + 1)), cid, d2⟩ ∧
      genAccountId (db.nextId + 1) ≠ genAccountId db.nextId ∧
      (dictGet cid2 db.customers = none →
        BankingService.create_account db cid2 d3 =
          (.error .customerNotFound, db)) := by
  have hgd : dictGet (genAccountId db.nextId) db.accounts = none :=
    hfresh db.nextId le_rfl
  have hacc : (BankingService.create_account db cid d).2.accounts =
      db.accounts ++ [(genAccountId db.nextId,
        ⟨none, some (genAccountId db.nextId), cid, d⟩)] := by
    rw [create_account_ok_eq hc]
    exact dictInsert_of_none hgd
  refine ⟨?_, hgd, hacc, ?_, ?_, ?_, ?_⟩
  · rw [create_account_ok_eq hc]
  · intro k v hkv
    rw [hacc]
    exact dictGet_append_left hkv
  · have hc1 : dictGet cid
        (BankingService.create_account db cid d).2.customers = some c := by
      rw [create_account_ok_eq hc]
      exact hc
    have hn1 : (BankingService.create_account db cid d).2.nextId =
        db.nextId + 1 := by
      rw [create_account_ok_eq hc]
    rw [create_account_ok_eq hc1, hn1]
  · intro he
    have := genAccountId_inj he
    omega
  · intro h2
    exact create_account_err_eq h2 d3

/-- Witness for C6 at the seeded store: customer 1, deposits 100 and 50,
absent customer 999. -/
theorem C6_create_account_spec_witness :
    (BankingService.create_account seedDb 1 100).1 =
        .ok ⟨none, some (genAccountId 0), 1, 100⟩ ∧
      dictGet (genAccountId 0) seedDb.accounts = none ∧
      (BankingService.create_account seedDb 1 100).2.accounts =
        seedDb.accounts ++ [(genAccountId 0, ⟨none, some (genAccountId 0),
          1, 100⟩)] ∧
      (∀ k v, dictGet k seedDb.accounts = some v →
        dictGet k (BankingService.create_account seedDb 1 100).2.accounts =
          some v) ∧
      (BankingService.create_account
          (BankingService.create_account seedDb 1 100).2 1 50).1 =
        .ok ⟨none, some (genAccountId 1), 1, 50⟩ ∧
      genAccountId 1 ≠ genAccountId 0 ∧
      (dictGet 999 seedDb.customers = none →
        BankingService.create_account seedDb 999 25 =
          (.error .customerNotFound, seedDb)) :=
  C6_create_account_spec seedDb 1 999 100 50 25
    ⟨1, "Arisha Barron", "Arisha@dummy.com"⟩ freshIds_seedDb rfl

end Banking
